import Mathlib

/-
A verification development for the resilient extraction-repair-validate-
retry layer of the videoggtool repository.  The definitions embed, from
the source, the parseJSON helper of the backend LLM client, its line
normalizer, structural extractor, heuristic repair rules, bracket
balancer and single parse stage, together with the declared schema shape
and the generateVideoStructure repair-retry controller.  The strict
parser and the schema-walk semantics of the validation library are
modelled from the spec, as they are platform and library collaborators
not part of the repository.  The regex rewrite rules of the source are
embedded through a small deterministic matcher whose tokens cover exactly
the constructs those rules use.
-/


/-- JS whitespace class as used by the regex escapes in the repair rules
    (ASCII subset; the inputs we reason about are ASCII). -/
def wsc (c : Char) : Bool :=
  c = ' ' || c = '\t' || c = '\n' || c = '\r' || c = '\x0b' || c = '\x0c'

/-- Digit class 0-9. -/
def digc (c : Char) : Bool := c.isDigit

/-- Digit-or-dot class. -/
def ddc (c : Char) : Bool := c.isDigit || c = '.'

/-- First character of an identifier per the character class with dollar. -/
def idS (c : Char) : Bool := c.isAlpha || c = '_' || c = '$'

/-- Continuation character of an identifier per the class with dollar. -/
def idC (c : Char) : Bool := idS c || c.isDigit

/-- First character of an identifier per the class without dollar. -/
def idSu (c : Char) : Bool := c.isAlpha || c = '_'

/-- Continuation character of an identifier per the class without dollar. -/
def idCu (c : Char) : Bool := idSu c || c.isDigit

/-- Non-quote character class. -/
def nqc (c : Char) : Bool := c != '"'

/-- Closing-bracket class for the negative lookaheads. -/
def brc (c : Char) : Bool := c = '\x7d' || c = ']'

/-- The opening curly brace character. -/
def lcur : Char := '\x7b'

/-- The closing curly brace character. -/
def rcur : Char := '\x7d'

/-- Index of the last newline in a character list, if any. -/
def lastNlPos : List Char → Option Nat
  | [] => none
  | c :: t =>
    match lastNlPos t with
    | some i => some (i + 1)
    | none => if c = '\n' then some 0 else none

/-- Tokens of a small deterministic matcher covering exactly the regex
    constructs used by the repair rules in the source.  Greedy repetitions
    here never need backtracking because in every rule of the source the
    repeated character class is disjoint from the token that follows; the
    backtracking shapes of the source are given dedicated tokens
    (wsNlLast, wsEolm) whose semantics were derived by hand. -/
inductive RTok where
  | lit : List Char → RTok
  | cls : (Char → Bool) → RTok
  | star : (Char → Bool) → RTok
  | copt : (Char → Bool) → RTok
  | galt : List (List Char) → RTok
  | gopen : RTok
  | gclose : RTok
  | lookNeg : (Char → Bool) → RTok
  | lookPosWs : (Char → Bool) → RTok
  | eol : RTok
  | eolm : RTok
  | wsNlLast : RTok
  | wsEolm : RTok

/-- First literal of a list that is a prefix of the text, if any. -/
def firstLit : List (List Char) → List Char → Option (List Char)
  | [], _ => none
  | l :: ls, s => if l.isPrefixOf s then some l else firstLit ls s

/-- Match a token list at the start of the text.  Returns the remaining
    text and the captured groups.  The third argument records the text
    at the position where a capturing group opened. -/
def mtc : List RTok → List Char → Option (List Char) → List (List Char) →
    Option (List Char × List (List Char))
  | [], s, _, caps => some (s, caps)
  | RTok.lit l :: ts, s, o, caps =>
    if l.isPrefixOf s then mtc ts (s.drop l.length) o caps else none
  | RTok.cls _ :: _, [], _, _ => none
  | RTok.cls p :: ts, c :: s, o, caps =>
    if p c then mtc ts s o caps else none
  | RTok.star p :: ts, s, o, caps => mtc ts (s.dropWhile p) o caps
  | RTok.copt _ :: ts, [], o, caps => mtc ts [] o caps
  | RTok.copt p :: ts, c :: s, o, caps =>
    if p c then mtc ts s o caps else mtc ts (c :: s) o caps
  | RTok.galt ls :: ts, s, o, caps =>
    match firstLit ls s with
    | some l => mtc ts (s.drop l.length) o (caps ++ [l])
    | none => none
  | RTok.gopen :: ts, s, _, caps => mtc ts s (some s) caps
  | RTok.gclose :: ts, s, o, caps =>
    match o with
    | some s0 => mtc ts s none (caps ++ [s0.take (s0.length - s.length)])
    | none => none
  | RTok.lookNeg _ :: ts, [], o, caps => mtc ts [] o caps
  | RTok.lookNeg p :: ts, c :: s, o, caps =>
    if p c then none else mtc ts (c :: s) o caps
  | RTok.lookPosWs p :: ts, s, o, caps =>
    match s.dropWhile wsc with
    | c :: _ => if p c then mtc ts s o caps else none
    | [] => none
  | RTok.eol :: ts, [], o, caps => mtc ts [] o caps
  | RTok.eol :: _, _ :: _, _, _ => none
  | RTok.eolm :: ts, [], o, caps => mtc ts [] o caps
  | RTok.eolm :: ts, c :: s, o, caps =>
    if c = '\n' || c = '\r' then mtc ts (c :: s) o caps else none
  | RTok.wsNlLast :: ts, s, o, caps =>
    match lastNlPos (s.takeWhile wsc) with
    | some i => mtc ts (s.drop (i + 1)) o caps
    | none => none
  | RTok.wsEolm :: ts, s, o, caps =>
    if (s.dropWhile wsc).isEmpty then mtc ts (s.dropWhile wsc) o caps
    else
      match lastNlPos (s.takeWhile wsc) with
      | some i => mtc ts (s.drop i) o caps
      | none => none

/-- A replacement template piece: literal text or a capture reference. -/
def Tm : Type := Sum (List Char) Nat

/-- Render a replacement template against the captured groups. -/
def render (tmpl : List Tm) (caps : List (List Char)) : List Char :=
  tmpl.foldr (fun t acc =>
    (match t with
     | Sum.inl l => l
     | Sum.inr i => caps.getD (i - 1) []) ++ acc) []

/-- One text-rewrite rule: a pattern and a replacement template. -/
structure RRule where
  toks : List RTok
  tmpl : List Tm

/-- Global left-to-right replacement, continuing after each match, as the
    g-flagged replace of the source does.  The fuel is always the text
    length, which suffices since every pattern of the source consumes at
    least one character at a match. -/
def replAll (r : RRule) : Nat → List Char → List Char
  | 0, s => s
  | _ + 1, [] => []
  | fuel + 1, c :: tl =>
    match mtc r.toks (c :: tl) none [] with
    | some (rest, caps) =>
      if rest.length < tl.length + 1 then
        render r.tmpl caps ++ replAll r fuel rest
      else c :: replAll r fuel tl
    | none => c :: replAll r fuel tl

/-- Apply one rule over the whole text. -/
def applyRule (s : List Char) (r : RRule) : List Char := replAll r s.length s

/-- Apply a chain of rules in order, as the chained replace calls do. -/
def applyRules (rs : List RRule) (s : List Char) : List Char :=
  rs.foldl applyRule s

/-- Regex test: does the pattern match at some position of the text? -/
def rtest (toks : List RTok) : List Char → Bool
  | [] => (mtc toks [] none []).isSome
  | c :: tl => (mtc toks (c :: tl) none []).isSome || rtest toks tl

/-- Run a rewrite repeatedly, up to the given pass bound, stopping as soon
    as a pass leaves the text unchanged, as the pass loops of the source do. -/
def iterChanged (f : List Char → List Char) : Nat → List Char → List Char
  | 0, s => s
  | n + 1, s => let t := f s; if t = s then s else iterChanged f n t

/-- Pattern-building shorthand: a literal token from a string. -/
def Lr (s : String) : RTok := RTok.lit s.data

/-- Shorthand for a greedy whitespace star. -/
def sws : RTok := RTok.star wsc

/-- Captured identifier group, dollar included in the class. -/
def gid : List RTok := [RTok.gopen, RTok.cls idS, RTok.star idC, RTok.gclose]

/-- Captured identifier group, class without dollar. -/
def gidu : List RTok := [RTok.gopen, RTok.cls idSu, RTok.star idCu, RTok.gclose]

/-- Captured number group: digits, optional dot, digits. -/
def gnum : List RTok :=
  [RTok.gopen, RTok.cls digc, RTok.star digc, RTok.copt (· = '.'), RTok.star digc, RTok.gclose]

/-- Captured digit-or-dot group. -/
def gnumd : List RTok := [RTok.gopen, RTok.cls ddc, RTok.star ddc, RTok.gclose]

/-- Captured non-quote-run group. -/
def gstr : List RTok := [RTok.gopen, RTok.cls nqc, RTok.star nqc, RTok.gclose]

/-- Captured true-false-null alternation. -/
def gtfn : RTok := RTok.galt [("true").data, ("false").data, ("null").data]

/-- Quoted captured key with optional space before the colon. -/
def qkey : List RTok := [Lr ("\"")] ++ gid ++ [Lr ("\""), sws, Lr (":")]

/-- Quoted captured key (no-dollar class) followed directly by the colon. -/
def qkeyn : List RTok := [Lr ("\"")] ++ gidu ++ [Lr ("\":")]

/-- The shape star-newline-star of the source patterns. -/
def nlr : List RTok := [RTok.wsNlLast, sws]

/-- Template literal piece. -/
def tl_ (s : String) : Tm := Sum.inl s.data

/-- Template capture reference. -/
def tg (n : Nat) : Tm := Sum.inr n

/-!  Line normalizer (the duplicate-line grouping pass of parseJSON).  -/

/-- Split a character list at newlines, as the split of the source does. -/
def splitNl : List Char → List (List Char)
  | [] => [[]]
  | c :: t =>
    if c = '\n' then [] :: splitNl t
    else
      match splitNl t with
      | l :: ls => (c :: l) :: ls
      | [] => [[c]]

/-- JS-style trim of both ends (ASCII whitespace). -/
def jsTrim (l : List Char) : List Char :=
  ((l.dropWhile wsc).reverse.dropWhile wsc).reverse

/-- Does a line end in a closing delimiter, per the end-anchored class test
    of the source. -/
def endsDelim (l : List Char) : Bool :=
  match l.getLast? with
  | some c => c = rcur || c = ',' || c = ']'
  | none => false

/-- Longest common prefix of two lines. -/
def sharedStart : List Char → List Char → List Char
  | a :: as_, b :: bs => if a = b then a :: sharedStart as_ bs else []
  | _, _ => []

/-- One inner scan of the grouping loop: examine candidate indices j and
    return the chosen best index together with the related indices. -/
def scanWindow (lines : List (List Char)) (line : List Char) (processed : List Nat) :
    Nat → Nat → Nat → List Nat → Nat × List Nat
  | _, 0, bestIdx, related => (bestIdx, related)
  | j, fuel + 1, bestIdx, related =>
    if j ∈ processed then scanWindow lines line processed (j + 1) fuel bestIdx related
    else
      let cand := lines.getD j []
      if cand = line then
        scanWindow lines line processed (j + 1) fuel bestIdx (related ++ [j])
      else if line.isPrefixOf cand && cand.length > line.length && endsDelim cand then
        scanWindow lines line processed (j + 1) fuel j (related ++ [j])
      else if cand.isPrefixOf line && line.length > cand.length then
        if endsDelim line then
          scanWindow lines line processed (j + 1) fuel bestIdx (related ++ [j])
        else scanWindow lines line processed (j + 1) fuel bestIdx related
      else if line.isPrefixOf cand && cand.length > line.length then
        if endsDelim cand && !endsDelim line then
          scanWindow lines line processed (j + 1) fuel j (related ++ [j])
        else scanWindow lines line processed (j + 1) fuel bestIdx related
      else
        let cp := sharedStart line cand
        if cp.length > 20 && 5 * cp.length ≥ 4 * min line.length cand.length then
          if endsDelim cand && !endsDelim line && cand.length > line.length then
            scanWindow lines line processed (j + 1) fuel j (related ++ [j])
          else if endsDelim line && !endsDelim cand && line.length > cand.length then
            scanWindow lines line processed (j + 1) fuel bestIdx (related ++ [j])
          else scanWindow lines line processed (j + 1) fuel bestIdx related
        else scanWindow lines line processed (j + 1) fuel bestIdx related

/-- Outer grouping loop over the line indices; returns the kept indices. -/
def groupLines (lines : List (List Char)) (n : Nat) :
    Nat → Nat → List Nat → List Nat → List Nat
  | _, 0, _, keep => keep
  | i, fuel + 1, processed, keep =>
    if i ∈ processed then groupLines lines n (i + 1) fuel processed keep
    else
      let line := lines.getD i []
      let bound := min (i + 7) n
      let (bestIdx, related) :=
        scanWindow lines line processed (i + 1) (bound - (i + 1)) i [i]
      groupLines lines n (i + 1) fuel (processed ++ related) (keep ++ [bestIdx])

/-- The final keep-or-drop filter of the normalizer, built from the same
    regex tests the source applies. -/
def keepLine (l : List Char) : Bool :=
  if l = [lcur] || l = [rcur] || l = ['['] || l = [']'] then true
  else if rtest [RTok.cls (fun c => c = ':' || c = '"'), sws, RTok.eol] l then false
  else if (mtc [Lr ("\""), RTok.cls nqc, RTok.star nqc, Lr ("\""), RTok.eol] l none []).isSome
    then false
  else true

/-- Join lines with newlines. -/
def joinNl : List (List Char) → List Char
  | [] => []
  | [l] => l
  | l :: ls => l ++ '\n' :: joinNl ls

/-- The line normalizer: trim and drop empty lines, group duplicated and
    superset lines keeping one representative, drop obviously incomplete
    lines, and rejoin. -/
def normalizeLines (s : List Char) : List Char :=
  let tlines := ((splitNl s).map jsTrim).filter (fun l => !l.isEmpty)
  let n := tlines.length
  let keep := groupLines tlines n 0 n [] []
  let finalLines := (((List.range n).filter (· ∈ keep)).map
    (fun i => tlines.getD i [])).filter keepLine
  joinNl finalLines

/-!  Structural extraction (fence contents or widest brace span).  -/

/-- Scan for the closing fence, accumulating the interior reversed; the
    trailing whitespace run is stripped, reproducing the lazy-group
    semantics of the fence regex. -/
def fenceScan : List Char → List Char → Option (List Char)
  | [], _ => none
  | c :: t, acc =>
    if ("```".data).isPrefixOf (c :: t) then some ((acc.dropWhile wsc).reverse)
    else fenceScan t (c :: acc)

/-- Interior of a fenced block starting right after an opening fence:
    optional language tag, leading whitespace skipped, then the scan. -/
def fenceInner (s : List Char) : Option (List Char) :=
  fenceScan ((if ("json".data).isPrefixOf s then s.drop 4 else s).dropWhile wsc) []

/-- Leftmost fenced block interior in the text, if any. -/
def fenceFind : List Char → Option (List Char)
  | [] => none
  | c :: t =>
    if ("```".data).isPrefixOf (c :: t) then
      match fenceInner ((c :: t).drop 3) with
      | some i => some i
      | none => fenceFind t
    else fenceFind t

/-- Widest brace span (first opening brace to last closing brace), per the
    greedy object regex of the source. -/
def objMatch (s : List Char) : Option (List Char) :=
  match s.drop (s.takeWhile (· ≠ lcur)).length with
  | [] => none
  | _ :: r =>
    if rcur ∈ r then
      some (lcur :: r.take (r.length - (r.reverse.takeWhile (· ≠ rcur)).length))
    else none

/-- Re-derive first and last brace indices and slice, per the source. -/
def braceSlice (s : List Char) : List Char :=
  if (s.takeWhile (· ≠ lcur)).length = s.length then s
  else if (s.reverse.takeWhile (· ≠ rcur)).length = s.length then s
  else if (s.takeWhile (· ≠ lcur)).length
      < s.length - 1 - (s.reverse.takeWhile (· ≠ rcur)).length then
    (s.drop (s.takeWhile (· ≠ lcur)).length).take
      (s.length - 1 - (s.reverse.takeWhile (· ≠ rcur)).length + 1
        - (s.takeWhile (· ≠ lcur)).length)
  else s

/-- The structural-extraction stage of parseJSON. -/
def extractStage (cleaned : List Char) : List Char :=
  braceSlice
    (match fenceFind cleaned with
     | some i => i
     | none =>
       match objMatch (jsTrim cleaned) with
       | some m => m
       | none => jsTrim cleaned)

/-!  Step 1.5: missing opening braces for objects in arrays.  -/

def step15rules : List RRule := [
  ⟨[Lr ("[")] ++ nlr ++ qkey, [tl_ ("[\n      \x7b\""), tg 1, tl_ ("\":")]⟩,
  ⟨[Lr ("\x7d"), sws, Lr (","), RTok.wsNlLast, sws] ++ qkey,
    [tl_ ("\x7d,\n      \x7b\""), tg 1, tl_ ("\":")]⟩,
  ⟨[Lr ("["), sws] ++ qkey, [tl_ ("[ \x7b\""), tg 1, tl_ ("\":")]⟩,
  ⟨[Lr ("]"), sws, Lr (","), sws, Lr ("\x7b"), sws] ++ qkey,
    [tl_ ("], \""), tg 1, tl_ ("\":")]⟩,
  ⟨[Lr ("]"), sws, Lr ("\x7b"), sws] ++ qkey, [tl_ ("], \""), tg 1, tl_ ("\":")]⟩]

def step15 (s : List Char) : List Char := applyRules step15rules s

/-!  Step 2: broken-string and URL fixes, three unconditional passes.  -/

def ruleHttpsA : RRule :=
  ⟨[RTok.gopen, Lr ("\":"), sws, Lr ("\"https:"), RTok.gclose, RTok.wsNlLast, sws] ++ qkeyn,
   [tg 1, tl_ ("//example.com/\",\n      \""), tg 2, tl_ ("\":")]⟩

def ruleHttpsB : RRule :=
  ⟨[Lr ("\"https:"), RTok.wsNlLast, sws] ++ qkeyn,
   [tl_ ("\"https://example.com/\",\n      \""), tg 1, tl_ ("\":")]⟩

def ruleHttpsC : RRule :=
  ⟨[Lr ("\"https:"), RTok.wsNlLast, sws, Lr ("\"")] ++ gstr ++ [Lr ("\":")],
   [tl_ ("\"https://example.com/\",\n      \""), tg 1, tl_ ("\":")]⟩

def ruleHttpsD : RRule :=
  ⟨[Lr ("\"https:"), RTok.wsNlLast], [tl_ ("\"https://example.com/\",\n")]⟩

/-- Anchored lookahead used by the character pass and by the lazy broken
    string rule: whitespace, quote, identifier, quote, colon.  Returns the
    matched length and the identifier. -/
def idKeyAfter (s : List Char) : Option (Nat × List Char) :=
  let wr := s.takeWhile wsc
  if wr.isEmpty then none
  else
    match s.drop wr.length with
    | '"' :: r2 =>
      match r2 with
      | c :: r3 =>
        if idSu c then
          let tl2 := r3.takeWhile idCu
          match r3.drop tl2.length with
          | '"' :: ':' :: _ => some (wr.length + tl2.length + 4, c :: tl2)
          | _ => none
        else none
      | [] => none
    | _ => none

/-- Lazy scan of the broken-string rule: grow the captured group over
    non-quote characters, and at each newline try the key lookahead,
    taking the first success, as the lazy quantifier does. -/
def bsScan : List Char → List Char → Option (List Char × List Char × List Char)
  | [], _ => none
  | c :: t, acc =>
    if c = '"' then none
    else if c = '\n' && !acc.isEmpty then
      match idKeyAfter t with
      | some (m, ident) => some (acc.reverse, ident, t.drop m)
      | none => bsScan t (c :: acc)
    else bsScan t (c :: acc)

/-- Try the broken-string rule at the current position. -/
def brokenAt (s : List Char) : Option (List Char × List Char) :=
  match s with
  | '"' :: ':' :: u =>
    let wr := u.takeWhile wsc
    match u.drop wr.length with
    | '"' :: v =>
      match bsScan v [] with
      | some (g2, ident, rest) =>
        some ('"' :: ':' :: wr ++ '"' :: g2 ++ ("\",\n      \"".data) ++ ident
          ++ ("\":".data), rest)
      | none => none
    | _ => none
  | _ => none

/-- Global application of the broken-string rule. -/
def ruleBroken : Nat → List Char → List Char
  | 0, s => s
  | _ + 1, [] => []
  | fuel + 1, c :: tl =>
    match brokenAt (c :: tl) with
    | some (repl, rest) => repl ++ ruleBroken fuel rest
    | none => c :: ruleBroken fuel tl

def step2pass (s : List Char) : List Char :=
  let s1 := applyRules [ruleHttpsA, ruleHttpsA, ruleHttpsB] s
  let s2 := ruleBroken s1.length s1
  applyRules [ruleHttpsC, ruleHttpsD] s2

def step2 (s : List Char) : List Char := step2pass (step2pass (step2pass s))

/-!  Step 3: character-by-character control-character and broken-string
     pass, with the in-string and escaped flags of the source.  -/

def fixCC : Nat → List Char → Bool → Bool → Option (List Char) → List Char
  | 0, s, _, _, _ => s
  | _ + 1, [], _, _, _ => []
  | fuel + 1, c :: tl, inStr, esc, content =>
    if !esc && c = '"' then
      if inStr then
        match idKeyAfter tl, content with
        | some (len, ident), some cont =>
          if cont.contains '\n' || ("https:".data).isSuffixOf cont then
            ("\",\n      \"".data) ++ ident ++ ("\":".data)
              ++ fixCC fuel (tl.drop (len - 1)) false false none
          else '"' :: fixCC fuel tl false false none
        | _, _ => '"' :: fixCC fuel tl false false none
      else '"' :: fixCC fuel tl true false (some [])
    else if !esc && c = '\\' then
      c :: fixCC fuel tl inStr true (content.map (· ++ [c]))
    else if inStr && !esc then
      if c = '\n' then
        match idKeyAfter tl with
        | some (len, ident) =>
          let cont := content.getD []
          if ("https:".data).isSuffixOf cont || ("http:".data).isSuffixOf cont then
            ("://example.com/\",\n      \"".data) ++ ident ++ ("\":".data)
              ++ fixCC fuel (tl.drop len) false false none
          else
            ("\",\n      \"".data) ++ ident ++ ("\":".data)
              ++ fixCC fuel (tl.drop len) false false none
        | none => ("\\n".data) ++ fixCC fuel tl inStr false (content.map (· ++ [c]))
      else if c = '\r' then ("\\r".data) ++ fixCC fuel tl inStr false (content.map (· ++ [c]))
      else if c = '\t' then ("\\t".data) ++ fixCC fuel tl inStr false (content.map (· ++ [c]))
      else if c = '\x0c' then ("\\f".data) ++ fixCC fuel tl inStr false (content.map (· ++ [c]))
      else if c = '\x08' then ("\\b".data) ++ fixCC fuel tl inStr false (content.map (· ++ [c]))
      else c :: fixCC fuel tl inStr false (content.map (· ++ [c]))
    else
      c :: fixCC fuel tl inStr false (if inStr then content.map (· ++ [c]) else content)

def step3 (s : List Char) : List Char := fixCC s.length s false false none

/-!  Step 3.5: missing closing braces before array and object closers,
     up to five passes with early exit.  -/

def step35rules : List RRule := [
  ⟨[Lr ("\"order\""), sws, Lr (":"), sws] ++ gnum
     ++ [sws, Lr ("]"), sws, RTok.copt (· = ','), sws] ++ qkey,
   [tl_ ("\"order\": "), tg 1, tl_ ("\x7d], \""), tg 2, tl_ ("\":")]⟩,
  ⟨gnum ++ [sws, Lr ("]"), sws, RTok.copt (· = ','), sws] ++ qkey,
   [tg 1, tl_ ("\x7d], \""), tg 2, tl_ ("\":")]⟩,
  ⟨[Lr ("\"")] ++ gstr ++ [Lr ("\""), sws, Lr ("]"), sws, RTok.copt (· = ','), sws] ++ qkey,
   [tl_ ("\""), tg 1, tl_ ("\"\x7d], \""), tg 2, tl_ ("\":")]⟩,
  ⟨[gtfn, sws, Lr ("]"), sws, RTok.copt (· = ','), sws] ++ qkey,
   [tg 1, tl_ ("\x7d], \""), tg 2, tl_ ("\":")]⟩,
  ⟨[Lr ("\"order\""), sws, Lr (":"), sws] ++ gnum
     ++ [RTok.wsNlLast, sws, Lr ("]"), sws, RTok.copt (· = ','), sws] ++ qkey,
   [tl_ ("\"order\": "), tg 1, tl_ ("\x7d\n    ], \""), tg 2, tl_ ("\":")]⟩,
  ⟨gnum ++ [RTok.wsNlLast, sws, Lr ("]"), sws, RTok.copt (· = ','), sws] ++ qkey,
   [tg 1, tl_ ("\x7d\n    ], \""), tg 2, tl_ ("\":")]⟩,
  ⟨[Lr ("\"")] ++ gstr
     ++ [Lr ("\""), RTok.wsNlLast, sws, Lr ("]"), sws, RTok.copt (· = ','), sws] ++ qkey,
   [tl_ ("\""), tg 1, tl_ ("\"\x7d\n    ], \""), tg 2, tl_ ("\":")]⟩,
  ⟨[gtfn, RTok.wsNlLast, sws, Lr ("]"), sws, RTok.copt (· = ','), sws] ++ qkey,
   [tg 1, tl_ ("\x7d\n    ], \""), tg 2, tl_ ("\":")]⟩,
  ⟨[Lr ("\"order\""), sws, Lr (":"), sws] ++ gnum
     ++ [sws, Lr ("]"), sws, Lr (","), sws, Lr ("\x7b"), sws] ++ qkey,
   [tl_ ("\"order\": "), tg 1, tl_ ("\x7d], \""), tg 2, tl_ ("\":")]⟩,
  ⟨gnum ++ [sws, Lr ("]"), sws, Lr (","), sws, Lr ("\x7b"), sws] ++ qkey,
   [tg 1, tl_ ("\x7d], \""), tg 2, tl_ ("\":")]⟩,
  ⟨[gtfn, sws, Lr ("]"), sws, Lr (","), sws, Lr ("\x7b"), sws] ++ qkey,
   [tg 1, tl_ ("\x7d], \""), tg 2, tl_ ("\":")]⟩,
  ⟨[Lr ("\"order\""), sws, Lr (":"), sws] ++ gnum
     ++ [sws, Lr ("]"), sws, Lr (","), sws, Lr ("\x7b"), RTok.wsNlLast, sws] ++ qkey,
   [tl_ ("\"order\": "), tg 1, tl_ ("\x7d],\n      \""), tg 2, tl_ ("\":")]⟩,
  ⟨gnum ++ [sws, Lr ("]"), sws, Lr (","), sws, Lr ("\x7b"), RTok.wsNlLast, sws] ++ qkey,
   [tg 1, tl_ ("\x7d],\n      \""), tg 2, tl_ ("\":")]⟩,
  ⟨gnum ++ [sws, Lr ("\x7d"), sws, Lr (","), sws, Lr ("\x7b"), sws] ++ qkey,
   [tg 1, tl_ ("\x7d\x7d, \""), tg 2, tl_ ("\":")]⟩,
  ⟨[Lr ("\"")] ++ gstr
     ++ [Lr ("\""), sws, Lr ("\x7d"), sws, Lr (","), sws, Lr ("\x7b"), sws] ++ qkey,
   [tl_ ("\""), tg 1, tl_ ("\"\x7d\x7d, \""), tg 2, tl_ ("\":")]⟩,
  ⟨[gtfn, sws, Lr ("\x7d"), sws, Lr (","), sws, Lr ("\x7b"), sws] ++ qkey,
   [tg 1, tl_ ("\x7d\x7d, \""), tg 2, tl_ ("\":")]⟩,
  ⟨gnum ++ [sws, Lr ("\x7d"), sws, Lr (","), sws, Lr ("\x7b"), RTok.wsNlLast, sws] ++ qkey,
   [tg 1, tl_ ("\x7d\x7d,\n      \""), tg 2, tl_ ("\":")]⟩,
  ⟨[Lr ("\"")] ++ gstr
     ++ [Lr ("\""), sws, Lr ("\x7d"), sws, Lr (","), sws, Lr ("\x7b"), RTok.wsNlLast, sws]
     ++ qkey,
   [tl_ ("\""), tg 1, tl_ ("\"\x7d\x7d,\n      \""), tg 2, tl_ ("\":")]⟩,
  ⟨[gtfn, sws, Lr ("\x7d"), sws, Lr (","), sws, Lr ("\x7b"), RTok.wsNlLast, sws] ++ qkey,
   [tg 1, tl_ ("\x7d\x7d,\n      \""), tg 2, tl_ ("\":")]⟩,
  ⟨[Lr ("\"scale\""), sws, Lr (":"), sws] ++ gnum
     ++ [sws, Lr ("\x7d"), sws, Lr (","), sws] ++ qkey,
   [tl_ ("\"scale\": "), tg 1, tl_ ("\x7d\x7d, \""), tg 2, tl_ ("\":")]⟩,
  ⟨[Lr ("\"scale\""), sws, Lr (":"), sws] ++ gnum
     ++ [sws, Lr ("\x7d"), sws, Lr (","), sws, Lr ("\x7b"), sws] ++ qkey,
   [tl_ ("\"scale\": "), tg 1, tl_ ("\x7d\x7d, \""), tg 2, tl_ ("\":")]⟩,
  ⟨[Lr ("\"scale\""), sws, Lr (":"), sws] ++ gnum
     ++ [sws, Lr ("\x7d"), RTok.lookNeg brc, RTok.wsEolm],
   [tl_ ("\"scale\": "), tg 1, tl_ ("\x7d\x7d")]⟩,
  ⟨[Lr ("\"scale\""), sws, Lr (":"), sws] ++ gnum
     ++ [sws, Lr ("\x7d"), RTok.lookNeg brc, RTok.wsNlLast],
   [tl_ ("\"scale\": "), tg 1, tl_ ("\x7d\x7d\n")]⟩,
  ⟨[Lr ("\"start\""), sws, Lr (":"), sws, Lr ("\x7b"), sws, Lr ("\"x\""), sws, Lr (":"), sws]
     ++ gnumd ++ [sws, Lr (","), sws, Lr ("\"y\""), sws, Lr (":"), sws]
     ++ gnumd ++ [sws, Lr (","), sws, Lr ("\"scale\""), sws, Lr (":"), sws]
     ++ gnumd ++ [sws, Lr ("\x7d"), RTok.lookNeg brc, RTok.wsEolm],
   [tl_ ("\"start\": \x7b \"x\": "), tg 1, tl_ (", \"y\": "), tg 2, tl_ (", \"scale\": "),
    tg 3, tl_ ("\x7d\x7d")]⟩,
  ⟨[Lr ("\"start\""), sws, Lr (":"), sws, Lr ("\x7b"), sws, Lr ("\"x\""), sws, Lr (":"), sws]
     ++ gnumd ++ [sws, Lr (","), sws, Lr ("\"y\""), sws, Lr (":"), sws]
     ++ gnumd ++ [sws, Lr (","), sws, Lr ("\"scale\""), sws, Lr (":"), sws]
     ++ gnumd ++ [sws, Lr ("\x7d"), RTok.lookNeg brc, RTok.wsNlLast],
   [tl_ ("\"start\": \x7b \"x\": "), tg 1, tl_ (", \"y\": "), tg 2, tl_ (", \"scale\": "),
    tg 3, tl_ ("\x7d\x7d\n")]⟩,
  ⟨gnum ++ [sws, Lr ("\x7d"), sws, Lr ("\x7d"), sws, Lr (","), sws] ++ qkey,
   [tg 1, tl_ ("\x7d\x7d\x7d, \""), tg 2, tl_ ("\":")]⟩,
  ⟨gnum ++ [sws, Lr ("\x7d"), sws, Lr ("\x7d"), sws, Lr (","), sws, Lr ("\x7b"), sws] ++ qkey,
   [tg 1, tl_ ("\x7d\x7d\x7d, \""), tg 2, tl_ ("\":")]⟩,
  ⟨gnum ++ [sws, Lr ("\x7d\x7d\x7d"), sws, Lr (","), sws] ++ qkey,
   [tg 1, tl_ ("\x7d, \""), tg 2, tl_ ("\":")]⟩,
  ⟨[Lr ("\"order\""), sws, Lr (":"), sws] ++ gnum
     ++ [sws, Lr ("\x7d\x7d\x7d"), sws, Lr (","), sws] ++ qkey,
   [tl_ ("\"order\": "), tg 1, tl_ ("\x7d, \""), tg 2, tl_ ("\":")]⟩]

def step35 (s : List Char) : List Char := iterChanged (applyRules step35rules) 5 s

/-!  Step 4: systematic missing-comma fixes, up to ten passes.  -/

def step4rules : List RRule := [
  ⟨[Lr ("\x7d"), sws, Lr ("]"), sws, RTok.copt (· = ','), sws] ++ qkey,
   [tl_ ("\x7d], \""), tg 1, tl_ ("\":")]⟩,
  ⟨[Lr ("]"), sws, RTok.copt (· = ','), sws] ++ qkey,
   [tl_ ("], \""), tg 1, tl_ ("\":")]⟩,
  ⟨[Lr ("\x7d"), sws, Lr ("\x7b")], [tl_ ("\x7d, \x7b")]⟩,
  ⟨[Lr ("\x7d"), RTok.cls wsc, sws] ++ qkey, [tl_ ("\x7d, \""), tg 1, tl_ ("\":")]⟩,
  ⟨[Lr ("\""), RTok.cls wsc, sws] ++ qkey, [tl_ ("\", \""), tg 1, tl_ ("\":")]⟩,
  ⟨gnum ++ [RTok.cls wsc, sws] ++ qkey, [tg 1, tl_ (", \""), tg 2, tl_ ("\":")]⟩,
  ⟨[gtfn, RTok.cls wsc, sws] ++ qkey, [tg 1, tl_ (", \""), tg 2, tl_ ("\":")]⟩,
  ⟨[Lr ("\""), RTok.wsNlLast, sws] ++ qkey, [tl_ ("\",\n      \""), tg 1, tl_ ("\":")]⟩,
  ⟨gnum ++ [RTok.wsNlLast, sws] ++ qkey, [tg 1, tl_ (",\n      \""), tg 2, tl_ ("\":")]⟩,
  ⟨[Lr ("\x7d"), RTok.wsNlLast, sws] ++ qkey, [tl_ ("\x7d,\n      \""), tg 1, tl_ ("\":")]⟩,
  ⟨[Lr ("]"), RTok.wsNlLast, sws] ++ qkey, [tl_ ("],\n      \""), tg 1, tl_ ("\":")]⟩,
  ⟨[gtfn, RTok.wsNlLast, sws] ++ qkey, [tg 1, tl_ (",\n      \""), tg 2, tl_ ("\":")]⟩,
  ⟨[Lr ("\x7d"), RTok.wsNlLast, sws, Lr ("\x7b")], [tl_ ("\x7d,\n      \x7b")]⟩,
  ⟨[Lr ("]"), RTok.wsNlLast, sws, Lr ("\x7b")], [tl_ ("],\n      \x7b")]⟩,
  ⟨[Lr ("\x7d"), RTok.wsNlLast, sws, Lr ("[")], [tl_ ("\x7d,\n      [")]⟩,
  ⟨[Lr ("]"), RTok.wsNlLast, sws, Lr ("[")], [tl_ ("],\n      [")]⟩]

def step4 (s : List Char) : List Char := iterChanged (applyRules step4rules) 10 s

/-!  Step 5: stray commas, unquoted keys, comments, quotes, whitespace.  -/

/-- Strip block comments: on a slash-star opener with a star-slash closer,
    remove through the closer, reproducing the lazy block-comment rule. -/
def findClose : List Char → Option (List Char)
  | [] => none
  | '*' :: '/' :: t => some t
  | _ :: t => findClose t

def stripBlock : Nat → List Char → List Char
  | 0, s => s
  | _ + 1, [] => []
  | fuel + 1, '/' :: '*' :: t =>
    match findClose t with
    | some rest => stripBlock fuel rest
    | none => '/' :: stripBlock fuel ('*' :: t)
  | fuel + 1, c :: t => c :: stripBlock fuel t

def step5rulesA : List RRule := [
  ⟨[Lr (","), RTok.gopen, sws, RTok.cls brc, RTok.gclose], [tg 1]⟩,
  ⟨[Lr (","), RTok.gopen, sws, RTok.cls brc, RTok.gclose], [tg 1]⟩,
  ⟨[RTok.gopen, RTok.cls (fun c => c = lcur || c = ','), sws, RTok.gclose] ++ gid
     ++ [sws, Lr (":")],
   [tg 1, tl_ ("\""), tg 2, tl_ ("\":")]⟩,
  ⟨[Lr ("//"), RTok.star (fun c => c ≠ '\n' && c ≠ '\r'), RTok.eolm], []⟩]

def step5rulesB : List RRule := [
  ⟨[RTok.gopen, RTok.cls (fun c => c = lcur || c = ':' || c = ',' || wsc c), RTok.gclose,
    Lr ("\x27")],
   [tg 1, tl_ ("\"")]⟩,
  ⟨[Lr ("\x27"), RTok.lookPosWs (fun c => c = ',' || c = rcur || c = ']')], [tl_ ("\"")]⟩,
  ⟨[Lr ("\x27"), RTok.lookPosWs (· = ':')], [tl_ ("\"")]⟩,
  ⟨[RTok.gopen, RTok.cls (fun c => c = '"' || c = ':'), RTok.gclose, RTok.cls wsc,
    RTok.cls wsc, sws],
   [tg 1, tl_ (" ")]⟩,
  ⟨[RTok.cls wsc, sws, RTok.gopen, RTok.cls brc, RTok.gclose], [tg 1]⟩,
  ⟨[Lr (","), RTok.cls wsc, RTok.cls wsc, sws], [tl_ (", ")]⟩]

def step5 (s : List Char) : List Char :=
  let s1 := applyRules step5rulesA s
  let s2 := stripBlock s1.length s1
  applyRules step5rulesB s2

/-!  Step 6: bracket balancer.  -/

def balanceBrackets (s : List Char) : List Char :=
  (if s.count rcur < s.count lcur
    then s ++ List.replicate (s.count lcur - s.count rcur) rcur else s)
  ++ (if s.count ']' < s.count '[' then List.replicate (s.count '[' - s.count ']') ']' else [])

/-!  The assembled repair pipeline of parseJSON.  -/

/-- The repaired text handed to the strict parser: normalizer, extractor,
    and all repair steps including the bracket balancer. -/
def preBalance (s : List Char) : List Char :=
  step5 (step4 (step35 (step3 (step2 (step15 (extractStage (normalizeLines s)))))))

def repairedText (s : List Char) : List Char := balanceBrackets (preBalance s)

-- ------------- sanity evals -------------

/-!  Strict parser.  Modelled from the spec: the strict structured-text
     parse (the platform JSON parser the source calls), with positions and
     diagnostic messages modelled deterministically.  Numbers are modelled
     as exact rationals.  -/

inductive Json where
  | null : Json
  | bool : Bool → Json
  | num : Rat → Json
  | str : List Char → Json
  | arr : List Json → Json
  | obj : List (List Char × Json) → Json

structure PErr where
  pos : Nat
  msg : List Char

def jws (c : Char) : Bool := c = ' ' || c = '\t' || c = '\n' || c = '\r'

def unexpTok (c : Char) (p : Nat) : PErr :=
  ⟨p, ("Unexpected token ".data) ++ [c] ++ (" in JSON at position ".data) ++ (toString p).data⟩

def unexpEnd : PErr := ⟨0, ("Unexpected end of JSON input".data)⟩

def hexv (c : Char) : Option Nat :=
  if c.isDigit then some (c.toNat - 48)
  else if 'a' ≤ c && c ≤ 'f' then some (c.toNat - 87)
  else if 'A' ≤ c && c ≤ 'F' then some (c.toNat - 55)
  else none

def pStr : List Char → Nat → List Char → Except PErr (List Char × List Char × Nat)
  | [], _, _ => Except.error unexpEnd
  | c :: t, p, acc =>
    if c = '"' then Except.ok (acc.reverse, t, p + 1)
    else if c = '\\' then
      match t with
      | [] => Except.error unexpEnd
      | e :: u =>
        if e = '"' then pStr u (p + 2) ('"' :: acc)
        else if e = '\\' then pStr u (p + 2) ('\\' :: acc)
        else if e = '/' then pStr u (p + 2) ('/' :: acc)
        else if e = 'b' then pStr u (p + 2) ('\x08' :: acc)
        else if e = 'f' then pStr u (p + 2) ('\x0c' :: acc)
        else if e = 'n' then pStr u (p + 2) ('\n' :: acc)
        else if e = 'r' then pStr u (p + 2) ('\r' :: acc)
        else if e = 't' then pStr u (p + 2) ('\t' :: acc)
        else if e = 'u' then
          match u with
          | h1 :: h2 :: h3 :: h4 :: u2 =>
            match hexv h1, hexv h2, hexv h3, hexv h4 with
            | some a, some b, some c2, some d =>
              pStr u2 (p + 6) (Char.ofNat (a * 4096 + b * 256 + c2 * 16 + d) :: acc)
            | _, _, _, _ =>
              Except.error ⟨p, ("Bad Unicode escape in JSON at position ".data)
                ++ (toString p).data⟩
          | _ => Except.error unexpEnd
        else Except.error ⟨p, ("Bad escaped character in JSON at position ".data)
          ++ (toString p).data⟩
    else if c.toNat < 32 then
      Except.error ⟨p, ("Bad control character in string literal in JSON at position ".data)
        ++ (toString p).data⟩
    else pStr t (p + 1) (c :: acc)

def natOfDigits (l : List Char) : Nat :=
  l.foldl (fun a c => a * 10 + (c.toNat - 48)) 0

def pNum (s : List Char) (p : Nat) : Except PErr (Json × List Char × Nat) :=
  let neg := s.head? = some '-'
  let s1 := if neg then s.drop 1 else s
  let p1 := if neg then p + 1 else p
  match s1.head? with
  | none => Except.error unexpEnd
  | some c =>
    if !digc c then Except.error (unexpTok c p1)
    else
      let ds := s1.takeWhile digc
      if ds.head? = some '0' && ds.length > 1 then
        Except.error ⟨p1 + 1, ("Unexpected number in JSON at position ".data)
          ++ (toString (p1 + 1)).data⟩
      else
        let s2 := s1.drop ds.length
        let p2 := p1 + ds.length
        let iv : Int := (natOfDigits ds : Int)
        let fracRes : Except PErr (Rat × List Char × Nat) :=
          match s2.head? with
          | some '.' =>
            let fd := (s2.drop 1).takeWhile digc
            if fd.isEmpty then
              match (s2.drop 1).head? with
              | some c2 => Except.error (unexpTok c2 (p2 + 1))
              | none => Except.error unexpEnd
            else
              Except.ok ((((iv * 10 ^ fd.length + (natOfDigits fd : Int) : Int) : Rat)
                / ((10 : Rat) ^ fd.length)), s2.drop (1 + fd.length), p2 + 1 + fd.length)
          | _ => Except.ok ((iv : Rat), s2, p2)
        match fracRes with
        | Except.error e => Except.error e
        | Except.ok (base, s3, p3) =>
          match s3.head? with
          | some 'e' | some 'E' =>
            let s4 := s3.drop 1
            let eneg := s4.head? = some '-'
            let s5 := if s4.head? = some '-' || s4.head? = some '+' then s4.drop 1 else s4
            let ed := s5.takeWhile digc
            if ed.isEmpty then
              match s5.head? with
              | some c2 => Except.error (unexpTok c2 p3)
              | none => Except.error unexpEnd
            else
              let ev := natOfDigits ed
              let q := if eneg then base / ((10 : Rat) ^ ev) else base * ((10 : Rat) ^ ev)
              Except.ok (Json.num (if neg then -q else q),
                s5.drop ed.length, p3 + (s3.length - s5.length) + ed.length)
          | _ => Except.ok (Json.num (if neg then -base else base), s3, p3)

def objInsert (acc : List (List Char × Json)) (k : List Char) (v : Json) :
    List (List Char × Json) :=
  if acc.any (fun kv => kv.1 == k) then
    acc.map (fun kv => if kv.1 == k then (k, v) else kv)
  else acc ++ [(k, v)]

mutual

def pVal : Nat → List Char → Nat → Except PErr (Json × List Char × Nat)
  | 0, _, p => Except.error ⟨p, ("fuel exhausted".data)⟩
  | fuel + 1, s, p =>
    let s1 := s.dropWhile jws
    let p1 := p + (s.length - s1.length)
    match s1 with
    | [] => Except.error unexpEnd
    | c :: t =>
      if c = lcur then pObj fuel t (p1 + 1) [] true
      else if c = '[' then pArr fuel t (p1 + 1) [] true
      else if c = '"' then
        match pStr t (p1 + 1) [] with
        | Except.ok (cs, rest, p2) => Except.ok (Json.str cs, rest, p2)
        | Except.error e => Except.error e
      else if c = 't' then
        if ("rue".data).isPrefixOf t then Except.ok (Json.bool true, t.drop 3, p1 + 4)
        else Except.error (unexpTok c p1)
      else if c = 'f' then
        if ("alse".data).isPrefixOf t then Except.ok (Json.bool false, t.drop 4, p1 + 5)
        else Except.error (unexpTok c p1)
      else if c = 'n' then
        if ("ull".data).isPrefixOf t then Except.ok (Json.null, t.drop 3, p1 + 4)
        else Except.error (unexpTok c p1)
      else if c = '-' || digc c then pNum s1 p1
      else Except.error (unexpTok c p1)

def pArr : Nat → List Char → Nat → List Json → Bool → Except PErr (Json × List Char × Nat)
  | 0, _, p, _, _ => Except.error ⟨p, ("fuel exhausted".data)⟩
  | fuel + 1, s, p, acc, first =>
    let s1 := s.dropWhile jws
    let p1 := p + (s.length - s1.length)
    match s1 with
    | [] => Except.error unexpEnd
    | c :: t =>
      if c = ']' && first then Except.ok (Json.arr [], t, p1 + 1)
      else
        match pVal fuel s1 p1 with
        | Except.error e => Except.error e
        | Except.ok (v, r2, p2) =>
          let r3 := r2.dropWhile jws
          let p3 := p2 + (r2.length - r3.length)
          match r3 with
          | [] => Except.error unexpEnd
          | d :: u =>
            if d = ']' then Except.ok (Json.arr (acc ++ [v]), u, p3 + 1)
            else if d = ',' then pArr fuel u (p3 + 1) (acc ++ [v]) false
            else Except.error (unexpTok d p3)

def pObj : Nat → List Char → Nat → List (List Char × Json) → Bool →
    Except PErr (Json × List Char × Nat)
  | 0, _, p, _, _ => Except.error ⟨p, ("fuel exhausted".data)⟩
  | fuel + 1, s, p, acc, first =>
    let s1 := s.dropWhile jws
    let p1 := p + (s.length - s1.length)
    match s1 with
    | [] => Except.error unexpEnd
    | c :: t =>
      if c = rcur && first then Except.ok (Json.obj [], t, p1 + 1)
      else if c = '"' then
        match pStr t (p1 + 1) [] with
        | Except.error e => Except.error e
        | Except.ok (k, r2, p2) =>
          let r3 := r2.dropWhile jws
          let p3 := p2 + (r2.length - r3.length)
          match r3 with
          | [] => Except.error unexpEnd
          | d :: u =>
            if d = ':' then
              match pVal fuel u (p3 + 1) with
              | Except.error e => Except.error e
              | Except.ok (v, r4, p4) =>
                let r5 := r4.dropWhile jws
                let p5 := p4 + (r4.length - r5.length)
                match r5 with
                | [] => Except.error unexpEnd
                | d2 :: u2 =>
                  if d2 = rcur then Except.ok (Json.obj (objInsert acc k v), u2, p5 + 1)
                  else if d2 = ',' then pObj fuel u2 (p5 + 1) (objInsert acc k v) false
                  else Except.error (unexpTok d2 p5)
            else Except.error (unexpTok d p3)
      else Except.error (unexpTok c p1)

end

/-- The strict parse of the whole text: a single value with only
    whitespace around it. -/
def strictParse (s : List Char) : Except PErr Json :=
  match pVal (s.length + 1) s 0 with
  | Except.error e => Except.error e
  | Except.ok (v, rest, p) =>
    let r1 := rest.dropWhile jws
    match r1 with
    | [] => Except.ok v
    | c :: _ => Except.error (unexpTok c (p + (rest.length - r1.length)))

/-- The parse stage of parseJSON: one strict parse; on failure the error
    is rethrown wrapped in the friendlier message of the source (the
    console diagnostics of the source are output only and modelled away). -/
def parseStage (s : List Char) : Except (List Char) Json :=
  match strictParse s with
  | Except.ok v => Except.ok v
  | Except.error e =>
    Except.error (("Failed to parse JSON from LLM response: ".data) ++ e.msg)

/-- The whole of LLMClient.parseJSON: repair pipeline then one parse. -/
def parseJSON (s : List Char) : Except (List Char) Json :=
  parseStage (repairedText s)

/-!  Schema validator.  Modelled from the spec: the declared schema
     contract walk (the schema library the source calls), performing a
     full structural walk and collecting every violation as a path and
     message pair, never stopping at the first.  The shape is the one the
     schema module of the source declares.  -/

inductive PathElem where
  | key : List Char → PathElem
  | idx : Nat → PathElem
deriving DecidableEq

structure Issue where
  path : List PathElem
  message : List Char
deriving DecidableEq

def typeName : Json → List Char
  | Json.null => ("null").data
  | Json.bool _ => ("boolean").data
  | Json.num _ => ("number").data
  | Json.str _ => ("string").data
  | Json.arr _ => ("array").data
  | Json.obj _ => ("object").data

def expMsg (want : String) (got : Json) : List Char :=
  ("Expected ".data) ++ want.data ++ (", received ".data) ++ typeName got

def getKey (kvs : List (List Char × Json)) (k : String) : Option Json :=
  (kvs.find? (fun kv => kv.1 == k.data)).map (fun kv => kv.2)

/-- Issues of a required string field. -/
def strIssues (pfx : List PathElem) (name : String) (kvs : List (List Char × Json)) :
    List Issue :=
  match getKey kvs name with
  | none => [⟨pfx ++ [PathElem.key name.data], ("Required").data⟩]
  | some (Json.str _) => []
  | some v => [⟨pfx ++ [PathElem.key name.data], expMsg ("string") v⟩]

/-- Issues of a required positive-number field. -/
def posNumIssues (pfx : List PathElem) (name : String) (kvs : List (List Char × Json)) :
    List Issue :=
  match getKey kvs name with
  | none => [⟨pfx ++ [PathElem.key name.data], ("Required").data⟩]
  | some (Json.num q) =>
    if q ≤ 0 then [⟨pfx ++ [PathElem.key name.data], ("Number must be greater than 0").data⟩]
    else []
  | some v => [⟨pfx ++ [PathElem.key name.data], expMsg ("number") v⟩]

/-- Issues of a required nonnegative-number field. -/
def nonnegNumIssues (pfx : List PathElem) (name : String) (kvs : List (List Char × Json)) :
    List Issue :=
  match getKey kvs name with
  | none => [⟨pfx ++ [PathElem.key name.data], ("Required").data⟩]
  | some (Json.num q) =>
    if q < 0 then
      [⟨pfx ++ [PathElem.key name.data], ("Number must be greater than or equal to 0").data⟩]
    else []
  | some v => [⟨pfx ++ [PathElem.key name.data], expMsg ("number") v⟩]

/-- Issues of the required positive-integer order field. -/
def intPosIssues (pfx : List PathElem) (name : String) (kvs : List (List Char × Json)) :
    List Issue :=
  match getKey kvs name with
  | none => [⟨pfx ++ [PathElem.key name.data], ("Required").data⟩]
  | some (Json.num q) =>
    (if q.den ≠ 1 then
      [⟨pfx ++ [PathElem.key name.data], ("Expected integer, received float").data⟩]
     else []) ++
    (if q ≤ 0 then
      [⟨pfx ++ [PathElem.key name.data], ("Number must be greater than 0").data⟩]
     else [])
  | some v => [⟨pfx ++ [PathElem.key name.data], expMsg ("number") v⟩]

/-- Issues of the optional nullable transition field. -/
def transIssues (pfx : List PathElem) (kvs : List (List Char × Json)) : List Issue :=
  match getKey kvs ("transition_type") with
  | none => []
  | some Json.null => []
  | some (Json.str _) => []
  | some v => [⟨pfx ++ [PathElem.key ("transition_type").data], expMsg ("string") v⟩]

/-- Issues of one segment value. -/
def segmentIssues (pfx : List PathElem) : Json → List Issue
  | Json.obj kvs =>
    strIssues pfx ("id") kvs ++ strIssues pfx ("asset_id") kvs
      ++ posNumIssues pfx ("duration") kvs ++ intPosIssues pfx ("order") kvs
      ++ transIssues pfx kvs
  | v => [⟨pfx, expMsg ("object") v⟩]

/-- Issues of the nonempty segments array. -/
def segmentsIssues (pfx : List PathElem) (kvs : List (List Char × Json)) : List Issue :=
  match getKey kvs ("segments") with
  | none => [⟨pfx ++ [PathElem.key ("segments").data], ("Required").data⟩]
  | some (Json.arr xs) =>
    (if xs.isEmpty then
      [⟨pfx ++ [PathElem.key ("segments").data],
        ("Array must contain at least 1 element(s)").data⟩]
     else []) ++
    (xs.enum.flatMap (fun vi =>
      segmentIssues (pfx ++ [PathElem.key ("segments").data, PathElem.idx vi.1]) vi.2))
  | some v => [⟨pfx ++ [PathElem.key ("segments").data], expMsg ("array") v⟩]

/-- Issues of the structure object. -/
def structureIssues (pfx : List PathElem) : Json → List Issue
  | Json.obj kvs =>
    posNumIssues pfx ("total_duration") kvs ++ segmentsIssues pfx kvs
      ++ nonnegNumIssues pfx ("voiceover_duration") kvs
      ++ nonnegNumIssues pfx ("voiceover_start") kvs
  | v => [⟨pfx, expMsg ("object") v⟩]

/-- Issues of the optional reasoning field. -/
def reasoningIssues (kvs : List (List Char × Json)) : List Issue :=
  match getKey kvs ("reasoning") with
  | none => []
  | some (Json.str _) => []
  | some v => [⟨[PathElem.key ("reasoning").data], expMsg ("string") v⟩]

/-- All violations of the root schema. -/
def rootIssues : Json → List Issue
  | Json.obj kvs =>
    (match getKey kvs ("structure") with
     | none => [⟨[PathElem.key ("structure").data], ("Required").data⟩]
     | some v => structureIssues [PathElem.key ("structure").data] v)
      ++ reasoningIssues kvs
  | v => [⟨[], expMsg ("object") v⟩]

/-- The validated data the schema walk returns on success: the declared
    keys only, in shape order. -/
def stripSegment : Json → Json
  | Json.obj kvs =>
    Json.obj ([(("id").data, getKey kvs ("id")), (("asset_id").data, getKey kvs ("asset_id")),
      (("duration").data, getKey kvs ("duration")), (("order").data, getKey kvs ("order")),
      (("transition_type").data, getKey kvs ("transition_type"))].filterMap
      (fun kv => kv.2.map (fun v => (kv.1, v))))
  | v => v

def stripStructure : Json → Json
  | Json.obj kvs =>
    Json.obj ([(("total_duration").data, getKey kvs ("total_duration")),
      (("segments").data, (getKey kvs ("segments")).map (fun sv =>
        match sv with
        | Json.arr xs => Json.arr (xs.map stripSegment)
        | v => v)),
      (("voiceover_duration").data, getKey kvs ("voiceover_duration")),
      (("voiceover_start").data, getKey kvs ("voiceover_start"))].filterMap
      (fun kv => kv.2.map (fun v => (kv.1, v))))
  | v => v

def stripRoot : Json → Json
  | Json.obj kvs =>
    Json.obj ([(("structure").data, (getKey kvs ("structure")).map stripStructure),
      (("reasoning").data, getKey kvs ("reasoning"))].filterMap
      (fun kv => kv.2.map (fun v => (kv.1, v))))
  | v => v

/-!  The repair-retry controller generateVideoStructure.  -/

/-- Join with a separator, as the join of the source does. -/
def joinSep (sep : List Char) : List (List Char) → List Char
  | [] => []
  | [l] => l
  | l :: ls => l ++ sep ++ joinSep sep ls

/-- Rendered path of an issue, joined with dots. -/
def renderPath (p : List PathElem) : List Char :=
  joinSep (".".data) (p.map (fun e =>
    match e with
    | PathElem.key s => s
    | PathElem.idx n => (toString n).data))

/-- One rendered issue: path, en dash, message. -/
def renderIssue (i : Issue) : List Char :=
  renderPath i.path ++ (" – ".data) ++ i.message

/-- The aggregated schema-failure text of the controller. -/
def issuesText (is_ : List Issue) : List Char :=
  joinSep ("; ".data) (is_.map renderIssue)

/-- The full message of the schema-validation error the controller throws. -/
def validationMessage (j : Json) : List Char :=
  ("Schema validation failed: ".data) ++ issuesText (rootIssues j)

/-- One attempt of the controller: parseJSON, then the schema walk; a
    validation failure is thrown with the aggregated message. -/
def attemptOutcome (content : List Char) : Except (List Char) Json :=
  match parseJSON content with
  | Except.error e => Except.error e
  | Except.ok j =>
    match rootIssues j with
    | [] => Except.ok (stripRoot j)
    | _ => Except.error (validationMessage j)

/-- The terminal exhaustion message of the controller. -/
def exhaustMsg (maxAttempts : Nat) (lastErr : List Char) (lastContent : List Char) :
    List Char :=
  ("Could not obtain a valid video structure after ".data) ++ (toString maxAttempts).data
    ++ (" attempts.\nLast error: ".data) ++ lastErr
    ++ ("\nLast LLM output (truncated): ".data) ++ lastContent.take 500

/-- Substring test used by the conditional of the repair prompt. -/
def containsSub (hay ned : List Char) : Bool :=
  match hay with
  | [] => ned.isEmpty
  | _ :: t => ned.isPrefixOf hay || containsSub t ned

/-- The repair prompt built from the last raw output and the error. -/
def buildRepairPrompt (rawOutput : List Char) (validationError : List Char) : List Char :=
  let specificError :=
    if (containsSub validationError ("Expected".data)
        && containsSub validationError ("after property value".data)) then
      ("JSON parsing error: ".data) ++ validationError
        ++ ("\n\nCOMMON FIXES:\n- Make sure every object in an array has a closing brace \x7d before the array closes with ]\n- Example WRONG: \x7b\"id\": \"seg1\", \"order\": 1]  (missing closing brace)\n- Example CORRECT: \x7b\"id\": \"seg1\", \"order\": 1\x7d]  (has closing brace)\n- Make sure all properties are separated by commas\n- Make sure all strings are properly quoted\n- Check that the last segment object closes with \x7d before the array closes with ]".data)
    else validationError
  ("The JSON you returned is not valid.\n\n**Your output**\n\n```\n".data)
    ++ rawOutput.take 1500
    ++ ("\n```\n\n**Error**\n\n".data) ++ specificError
    ++ ("\n\n**CRITICAL**: Please rewrite the ENTIRE JSON object from scratch. Make absolutely sure:\n1. Every object in the segments array has a closing brace \x7d before the array closes\n2. All properties are separated by commas\n3. The JSON is valid and can be parsed by JSON.parse()\n4. Output ONLY the JSON - no markdown, no code fences, no explanations".data)

/-- Result of a repair session: the outcome and the number of generation
    calls issued. -/
structure SessionResult where
  outcome : Except (List Char) Json
  calls : Nat
  prompts : List (List Char)

/-- The retry loop of generateVideoStructure, with the generator
    abstracted as the sequence of contents its successive calls return.
    The last argument carries the current attempt's outcome (the result of
    parseJSON plus schema validation on the current raw content): the
    attempt counter starts at one after the initial call; on failure with
    budget left a repair prompt is built and a new call is issued.  The
    fuel is the remaining budget and never runs out before the attempt
    counter reaches the bound. -/
def sessionLoop (gen : Nat → List Char) (maxAttempts : Nat) :
    Nat → Nat → List (List Char) → Except (List Char) Json → SessionResult
  | attempt, 0, prompts, r =>
    match r with
    | Except.ok v => ⟨Except.ok v, attempt, prompts⟩
    | Except.error e =>
      ⟨Except.error (exhaustMsg maxAttempts e (gen (attempt - 1))), attempt, prompts⟩
  | attempt, fuel + 1, prompts, r =>
    match r with
    | Except.ok v => ⟨Except.ok v, attempt, prompts⟩
    | Except.error e =>
      if maxAttempts ≤ attempt then
        ⟨Except.error (exhaustMsg maxAttempts e (gen (attempt - 1))), attempt, prompts⟩
      else
        sessionLoop gen maxAttempts (attempt + 1) fuel
          (prompts ++ [buildRepairPrompt (gen (attempt - 1)) e])
          (attemptOutcome (gen attempt))

/-- generateVideoStructure: first call, then the bounded repair loop. -/
def generateVideoStructure (gen : Nat → List Char) (maxAttempts : Nat) : SessionResult :=
  sessionLoop gen maxAttempts 1 maxAttempts [] (attemptOutcome (gen 0))

def exceptIsOk : Except (List Char) Json → Bool
  | Except.ok _ => true
  | Except.error _ => false


/-!  Concrete values used by the witnesses and counterexamples.  -/

def gen2 : Nat → List Char := fun n => if n = 0 then ("alpha").data else ("beta").data

def genAlpha : Nat → List Char := fun _ => ("alpha").data

def vtwo : Json :=
  Json.obj [(("structure").data, Json.obj [
    (("total_duration").data, Json.num 0),
    (("segments").data, Json.arr [Json.obj [(("id").data, Json.str (("s1").data)),
      (("asset_id").data, Json.str (("a1").data)), (("duration").data, Json.num 10),
      (("order").data, Json.num 1)]]),
    (("voiceover_duration").data, Json.num (-1)),
    (("voiceover_start").data, Json.num 0)])]

def errOf : Except (List Char) Json → List Char
  | Except.error e => e
  | Except.ok _ => []



set_option maxRecDepth 100000

/-- C3 counterexample: the input text containing the two characters four
and two has no opening brace at all, yet the extraction stage raises no
distinct extraction error: the full parseJSON pipeline runs to the final
parse and even succeeds, returning the number forty-two.  This refutes
the claim that every input without an opening brace raises an
ExtractionError. -/
theorem no_brace_input_parses_successfully :
    parseJSON (("42").data) = Except.ok (Json.num 42)
      ∧ lcur ∉ ("42").data := by
  constructor
  · rfl
  · decide

/-- C5 counterexample: the text consisting of the quoted string hi is
already valid JSON under the strict parser, but the full
normalize-extract-repair pipeline does not preserve its parse: the line
normalizer drops the line because it ends in a quote, and the final parse
fails, refuting idempotence on already-valid input. -/
theorem pipeline_drops_valid_string_literal :
    strictParse (("\"hi\"").data) = Except.ok (Json.str (("hi").data))
      ∧ exceptIsOk (parseJSON (("\"hi\"").data)) = false := ⟨rfl, rfl⟩

/-- C6 counterexample: for the specific input of two key-value pairs with
the comma missing, the pipeline final parse fails, refuting the part of
the claim that says the parse of the repaired text succeeds. -/
theorem comma_repaired_text_fails_parse :
    exceptIsOk (parseJSON (("\"a\": 1 \"b\": 2").data)) = false := rfl

/-- C6 amended: for the input of two key-value pairs with the comma
missing, the repair engine does insert the missing comma, yielding
exactly the comma-separated text, but the final strict parse of that text
fails, because without surrounding braces it is not a single JSON value:
the parser stops at the colon at position three. -/
theorem comma_inserted_but_not_a_json_value :
    repairedText (("\"a\": 1 \"b\": 2").data) = (("\"a\": 1, \"b\": 2").data)
      ∧ parseJSON (("\"a\": 1 \"b\": 2").data)
        = Except.error (("Failed to parse JSON from LLM response: Unexpected token : in JSON at position 3").data) := ⟨rfl, rfl⟩

/-- C4 counterexample: the two-character text of two opening braces
reaches the bracket balancer unchanged by every earlier stage, the
balancer appends exactly two closing braces, and the strict parse of the
balanced result still fails; this refutes the part of the claim that says
the resulting text parses successfully. -/
theorem balancer_appends_two_but_parse_fails :
    preBalance (("\x7b\x7b").data) = (("\x7b\x7b").data)
      ∧ balanceBrackets (("\x7b\x7b").data) = (("\x7b\x7b\x7d\x7d").data)
      ∧ exceptIsOk (parseJSON (("\x7b\x7b").data)) = false := ⟨rfl, rfl, rfl⟩

/-- C5 amended: idempotence does not hold in general, not even on
single-line valid objects as a class: besides the line normalizer
dropping lines of valid JSON, the scale repair rule rewrites the valid
one-pair object mapping the key scale to two into a text with a spurious
extra closing brace, and its final parse fails; preservation holds only
for particular inputs, as here for the one-pair object mapping the key a
to one, whose parse tree the pipeline returns unchanged. -/
theorem pipeline_preserves_a_but_corrupts_scale :
    (parseJSON (("\x7b\"a\": 1\x7d").data)
        = Except.ok (Json.obj [((("a").data), Json.num 1)])
      ∧ strictParse (("\x7b\"a\": 1\x7d").data)
        = Except.ok (Json.obj [((("a").data), Json.num 1)]))
    ∧ (strictParse (("\x7b\"scale\": 2\x7d").data)
        = Except.ok (Json.obj [((("scale").data), Json.num 2)])
      ∧ repairedText (("\x7b\"scale\": 2\x7d").data)
        = (("\x7b\"scale\": 2\x7d\x7d").data)
      ∧ exceptIsOk (parseJSON (("\x7b\"scale\": 2\x7d").data)) = false) :=
  ⟨⟨rfl, rfl⟩, rfl, rfl, rfl⟩

/-- C8 counterexample: the complete line mapping the key a to the string
b ends in a properly closed string, yet the final filter drops it, because
the end-anchored character-class test of the source cannot distinguish a
closing quote from an unmatched opening quote.  This refutes the claim
that a line is dropped only when it ends in a bare colon or an unmatched
opening quote. -/
theorem filter_drops_closed_string_line : keepLine (("\"a\": \"b\"").data) = false := rfl

/-- C2 counterexample: in a two-attempt session whose generations return
the irreparable texts alpha and beta, the first attempt fails with the
unexpected-token-a error, but the terminal exhaustion error message
contains only the second attempt error and the second raw output: the
first attempt error is not an infix of the terminal message, refuting the
claim that the terminal error carries the error of every attempt. -/
theorem exhaustion_error_omits_first_attempt_error :
    attemptOutcome (("alpha").data)
        = Except.error (("Failed to parse JSON from LLM response: Unexpected token a in JSON at position 0").data)
      ∧ (generateVideoStructure gen2 2).outcome
        = Except.error (("Could not obtain a valid video structure after 2 attempts.\nLast error: Failed to parse JSON from LLM response: Unexpected token b in JSON at position 0\nLast LLM output (truncated): beta").data)
      ∧ ¬ ((("Failed to parse JSON from LLM response: Unexpected token a in JSON at position 0").data)
          <:+: (("Could not obtain a valid video structure after 2 attempts.\nLast error: Failed to parse JSON from LLM response: Unexpected token b in JSON at position 0\nLast LLM output (truncated): beta").data)) := by
  refine ⟨rfl, rfl, ?_⟩
  decide

/-- C9: within each attempt the repaired text is submitted to the strict
parser exactly once: parseJSON succeeds with a value exactly when the
single strict parse of the repaired text returns that value, and fails
exactly when that one parse fails; the catch branch only rewraps the
error and never re-parses a rewritten variant. -/
theorem single_parse_decides_attempt (s : List Char) (v : Json) :
    (parseJSON s = Except.ok v ↔ strictParse (repairedText s) = Except.ok v)
    ∧ (exceptIsOk (parseJSON s) = false
        ↔ ∃ e, strictParse (repairedText s) = Except.error e) := by
  unfold parseJSON parseStage
  cases h : strictParse (repairedText s) with
  | ok w => simp [exceptIsOk]
  | error e => simp [exceptIsOk]

/-- C10: the bracket balancer never removes or reorders characters: its
output is always the input followed by a suffix of closing braces and
closing square brackets only, and when closers already equal or exceed
openers for both bracket kinds the text passes through completely
unchanged. -/
theorem balancer_append_only (s : List Char) :
    (∃ t, balanceBrackets s = s ++ t ∧ ∀ c ∈ t, c = rcur ∨ c = ']')
    ∧ (s.count lcur ≤ s.count rcur → s.count '[' ≤ s.count ']' →
        balanceBrackets s = s) := by
  constructor
  · unfold balanceBrackets
    split_ifs with h1 h2 h3
    · refine ⟨List.replicate (s.count lcur - s.count rcur) rcur
        ++ List.replicate (s.count '[' - s.count ']') ']', by simp [List.append_assoc], ?_⟩
      intro c hc
      rcases List.mem_append.1 hc with h | h
      · exact Or.inl (List.eq_of_mem_replicate h)
      · exact Or.inr (List.eq_of_mem_replicate h)
    · refine ⟨List.replicate (s.count lcur - s.count rcur) rcur, by simp, ?_⟩
      intro c hc; exact Or.inl (List.eq_of_mem_replicate hc)
    · refine ⟨List.replicate (s.count '[' - s.count ']') ']', rfl, ?_⟩
      intro c hc; exact Or.inr (List.eq_of_mem_replicate hc)
    · exact ⟨[], by simp, by intro c hc; cases hc⟩
  · intro h1 h2
    unfold balanceBrackets
    rw [if_neg (by omega), if_neg (by omega), List.append_nil]

/-- C4 amended: for every text reaching the balancer whose count of
opening curly braces exceeds its count of closing ones by two, the
balancer appends exactly two closing curly braces, before any closing
square brackets appended for an independent square deficit; the amended
claim drops the assertion that the resulting text parses, which the
counterexample refutes. -/
theorem balancer_appends_exact_deficit (s : List Char) (h : s.count lcur = s.count rcur + 2) :
    balanceBrackets s
      = s ++ [rcur, rcur] ++ List.replicate (s.count '[' - s.count ']') ']' := by
  unfold balanceBrackets
  rw [if_pos (by omega : s.count rcur < s.count lcur)]
  have h2 : s.count lcur - s.count rcur = 2 := by omega
  rw [h2]
  split_ifs with h3
  · simp [List.append_assoc]
  · have h4 : s.count '[' - s.count ']' = 0 := by omega
    rw [h4]
    simp

theorem mem_infix_joinSep (sep : List Char) :
    ∀ (L : List (List Char)) (x : List Char), x ∈ L → x <:+: joinSep sep L := by
  intro L
  induction L with
  | nil => intro x hx; cases hx
  | cons l ls ih =>
    intro x hx
    cases ls with
    | nil =>
      rcases List.mem_cons.1 hx with h | h
      · subst h; exact List.infix_rfl
      · cases h
    | cons m ms =>
      rcases List.mem_cons.1 hx with h | h
      · subst h
        exact ⟨[], sep ++ joinSep sep (m :: ms), by simp [joinNl, joinSep, List.append_assoc]⟩
      · exact (ih x h).trans ⟨l ++ sep, [], by simp [joinSep, List.append_assoc]⟩

/-- C7: the schema validator collects every violation, and the aggregated
message of the single validation failure thrown by the controller, built
by joining the rendered path and message pairs with semicolons, contains
the rendered path of every collected issue, never only the first. -/
theorem validation_message_contains_every_path (j : Json) (i : Issue) (hm : i ∈ rootIssues j) :
    renderPath i.path <:+: validationMessage j := by
  have h1 : renderIssue i <:+: issuesText (rootIssues j) :=
    mem_infix_joinSep _ _ _ (List.mem_map_of_mem renderIssue hm)
  have h2 : renderPath i.path <+: renderIssue i :=
    ⟨(" – ".data) ++ i.message, by simp [renderIssue, List.append_assoc]⟩
  exact (h2.isInfix.trans h1).trans
    ⟨("Schema validation failed: ".data), [], by simp [validationMessage]⟩

theorem fenceFind_eq_none : ∀ s : List Char, '\x60' ∉ s → fenceFind s = none := by
  intro s
  induction s with
  | nil => intro _; rfl
  | cons c t ih =>
    intro h
    have hc : ('\x60' : Char) ≠ c := fun e => h (e ▸ List.mem_cons_self c t)
    have hpre : (("```").data).isPrefixOf (c :: t) = false := by
      show (['\x60', '\x60', '\x60'].isPrefixOf (c :: t)) = false
      simp [List.isPrefixOf]
      intro e
      exact absurd e hc
    rw [fenceFind, hpre]
    simp only [Bool.false_eq_true, if_false]
    exact ih (fun hm => h (List.mem_cons_of_mem c hm))

theorem objMatch_eq_none (t : List Char) (h : lcur ∉ t) : objMatch t = none := by
  unfold objMatch
  have ht : t.takeWhile (fun c => decide (c ≠ lcur)) = t :=
    List.takeWhile_eq_self_iff.2 (fun a ha => by simp; exact fun e => h (e ▸ ha))
  rw [ht, List.drop_length]

theorem braceSlice_self (s : List Char) (h : lcur ∉ s) : braceSlice s = s := by
  unfold braceSlice
  have ht : s.takeWhile (fun c => decide (c ≠ lcur)) = s :=
    List.takeWhile_eq_self_iff.2 (fun a ha => by simp; exact fun e => h (e ▸ ha))
  rw [if_pos (by rw [ht])]

theorem jsTrim_subset {c : Char} {s : List Char} (h : c ∈ jsTrim s) : c ∈ s := by
  unfold jsTrim at h
  rw [List.mem_reverse] at h
  have h2 := (List.dropWhile_sublist wsc).subset h
  rw [List.mem_reverse] at h2
  exact (List.dropWhile_sublist wsc).subset h2

/-- C3 amended: the structural-extraction stage never raises any error;
for every input containing no opening brace and no backtick it returns
the input unchanged apart from trimming, so an attempt on such input is
decided downstream by the single parse, and may even succeed, as the
counterexample shows. -/
theorem extraction_without_brace_is_passthrough (s : List Char) (h1 : lcur ∉ s) (h2 : '\x60' ∉ s) :
    extractStage s = jsTrim s := by
  unfold extractStage
  rw [fenceFind_eq_none s h2]
  have h3 : lcur ∉ jsTrim s := fun hm => h1 (jsTrim_subset hm)
  rw [objMatch_eq_none _ h3]
  exact braceSlice_self _ h3

theorem mtc_endsCQ (p : Char → Bool) (s : List Char) :
    (mtc [RTok.cls p, sws, RTok.eol] s none []).isSome = true ↔
      ∃ c t, s = c :: t ∧ p c = true ∧ ∀ d ∈ t, wsc d = true := by
  cases s with
  | nil => simp [mtc]
  | cons c t =>
    have key : mtc [RTok.cls p, sws, RTok.eol] (c :: t) none []
        = if p c then
            (match t.dropWhile wsc with
             | [] => some (([] : List Char), ([] : List (List Char)))
             | _ :: _ => none)
          else none := by
      by_cases hp : p c
      · simp only [mtc, sws, hp, if_true]
        cases h : t.dropWhile wsc <;> simp [mtc, h]
      · simp [mtc, hp]
    rw [key]
    by_cases hp : p c
    · rw [if_pos hp]
      cases h : t.dropWhile wsc with
      | nil =>
        simp only [Option.isSome_some, true_iff]
        exact ⟨c, t, rfl, hp, List.dropWhile_eq_nil_iff.1 h⟩
      | cons d u =>
        simp only [Option.isSome_none, Bool.false_eq_true, false_iff]
        rintro ⟨c', t', heq, hp', hws⟩
        obtain ⟨rfl, rfl⟩ : c = c' ∧ t = t' := by
          injection heq with h1 h2; exact ⟨h1, h2⟩
        rw [List.dropWhile_eq_nil_iff.2 hws] at h
        cases h
    · rw [if_neg hp]
      simp only [Option.isSome_none, Bool.false_eq_true, false_iff]
      rintro ⟨c', t', heq, hp', hws⟩
      obtain ⟨rfl, rfl⟩ : c = c' ∧ t = t' := by
        injection heq with h1 h2; exact ⟨h1, h2⟩
      exact hp hp'

theorem rtest_endsCQ (p : Char → Bool) : ∀ s : List Char,
    rtest [RTok.cls p, sws, RTok.eol] s = true ↔
      ∃ t1 c t2, s = t1 ++ c :: t2 ∧ p c = true ∧ ∀ d ∈ t2, wsc d = true := by
  intro s
  induction s with
  | nil =>
    simp only [rtest]
    rw [show (mtc [RTok.cls p, sws, RTok.eol] [] none []) = none from rfl]
    simp only [Option.isSome_none, Bool.false_eq_true, false_iff]
    rintro ⟨t1, c, t2, heq, -, -⟩
    cases t1 <;> simp at heq
  | cons c tl ih =>
    simp only [rtest, Bool.or_eq_true]
    constructor
    · rintro (h | h)
      · obtain ⟨c', t', heq, hp, hws⟩ := (mtc_endsCQ p (c :: tl)).1 h
        exact ⟨[], c', t', by simp [heq], hp, hws⟩
      · obtain ⟨t1, c', t2, heq, hp, hws⟩ := ih.1 h
        exact ⟨c :: t1, c', t2, by simp [heq], hp, hws⟩
    · rintro ⟨t1, c', t2, heq, hp, hws⟩
      cases t1 with
      | nil =>
        left
        injection heq with h1 h2
        exact (mtc_endsCQ p (c :: tl)).2 ⟨c', t2, by rw [h1, h2], hp, hws⟩
      | cons a t1' =>
        right
        injection heq with h1 h2
        exact ih.2 ⟨t1', c', t2, h2, hp, hws⟩

theorem mtc_quotedTok_aux (s : List Char) :
    (mtc [Lr ("\""), RTok.cls nqc, RTok.star nqc, Lr ("\""), RTok.eol] s none []).isSome
        = true ↔
      ∃ c2 t, s = '"' :: c2 :: t ∧ nqc c2 = true ∧ t.dropWhile nqc = ['"'] := by
  cases s with
  | nil => simp [mtc, Lr, List.isPrefixOf]
  | cons c r =>
    by_cases hc : c = '"'
    · subst hc
      cases r with
      | nil =>
        simp [mtc, Lr, List.isPrefixOf]
      | cons c2 t =>
        by_cases h2 : nqc c2
        · have key : mtc [Lr ("\""), RTok.cls nqc, RTok.star nqc, Lr ("\""), RTok.eol]
              ('"' :: c2 :: t) none []
              = mtc [Lr ("\""), RTok.eol] (t.dropWhile nqc) none [] := by
            simp [mtc, Lr, List.isPrefixOf, h2]
          rw [key]
          cases h3 : t.dropWhile nqc with
          | nil =>
            simp only [mtc, Lr, List.isPrefixOf, if_false, Option.isSome_none,
              Bool.false_eq_true, false_iff]
            rintro ⟨c2', t', heq, hx, hdw⟩
            obtain ⟨rfl, rfl⟩ : c2 = c2' ∧ t = t' := by
              injection heq with e1 e2; injection e2 with e2 e3; exact ⟨e2, e3⟩
            rw [h3] at hdw; cases hdw
          | cons d u =>
            by_cases hd : d = '"'
            · subst hd
              cases u with
              | nil =>
                constructor
                · intro hx
                  exact ⟨c2, t, rfl, h2, h3⟩
                · intro hx
                  rfl
              | cons e v =>
                constructor
                · intro hx
                  exact absurd hx (by simp [mtc, Lr, List.isPrefixOf])
                · rintro ⟨c2', t', heq, hx, hdw⟩
                  obtain ⟨rfl, rfl⟩ : c2 = c2' ∧ t = t' := by
                    injection heq with e1 e2; injection e2 with e2 e3; exact ⟨e2, e3⟩
                  rw [h3] at hdw
                  injection hdw with e3 e4
                  cases e4
            · have hpf : (['"'].isPrefixOf (d :: u)) = false := by
                simp [List.isPrefixOf]
                exact fun e => absurd e.symm hd
              simp only [mtc, Lr, hpf, Bool.false_eq_true, if_false, Option.isSome_none,
                false_iff]
              rintro ⟨c2', t', heq, hx, hdw⟩
              obtain ⟨rfl, rfl⟩ : c2 = c2' ∧ t = t' := by
                injection heq with e1 e2; injection e2 with e2 e3; exact ⟨e2, e3⟩
              rw [h3] at hdw
              injection hdw with e4 e5
              exact hd e4
        · have h2' : c2 = '"' := by
            unfold nqc at h2; simpa using h2
          constructor
          · intro hx
            exact absurd hx (by simp [mtc, Lr, List.isPrefixOf, h2])
          · rintro ⟨c2', t', heq, hn, hdw⟩
            obtain ⟨rfl, rfl⟩ : c2 = c2' ∧ t = t' := by
              injection heq with e1 e2; injection e2 with e2 e3; exact ⟨e2, e3⟩
            exact absurd hn h2
    · have hpf : (['"'].isPrefixOf (c :: r)) = false := by
        simp [List.isPrefixOf]
        exact fun e => absurd e.symm hc
      simp only [mtc, Lr, hpf, Bool.false_eq_true, if_false, Option.isSome_none, false_iff]
      rintro ⟨c2', t', heq, hx, hdw⟩
      injection heq with e1 e2
      exact hc e1

theorem mtc_quotedTok (s : List Char) :
    (mtc [Lr ("\""), RTok.cls nqc, RTok.star nqc, Lr ("\""), RTok.eol] s none []).isSome
        = true ↔
      ∃ mid, s = '"' :: mid ++ ['"'] ∧ mid ≠ [] ∧ ∀ d ∈ mid, d ≠ '"' := by
  rw [mtc_quotedTok_aux]
  constructor
  · rintro ⟨c2, t, rfl, h2, h3⟩
    refine ⟨c2 :: t.takeWhile nqc, ?_, by simp, ?_⟩
    · have hta := List.takeWhile_append_dropWhile nqc t
      rw [h3] at hta
      conv_lhs => rw [← hta]
      simp
    · intro d hd
      rcases List.mem_cons.1 hd with rfl | hd
      · unfold nqc at h2; simpa using h2
      · have := List.mem_takeWhile_imp hd
        unfold nqc at this; simpa using this
  · rintro ⟨mid, rfl, hne, hall⟩
    cases mid with
    | nil => exact absurd rfl hne
    | cons m mr =>
      refine ⟨m, mr ++ ['"'], by simp, ?_, ?_⟩
      · unfold nqc
        simp
        exact hall m (List.mem_cons_self m mr)
      · rw [List.dropWhile_append_of_pos]
        · rfl
        · intro a ha
          unfold nqc
          simp
          exact hall a (List.mem_cons_of_mem m ha)

/-- C8 amended: in the final filter a line that is exactly a single
structural delimiter is always kept; any other line is dropped exactly
when some suffix starts with a colon or a double quote followed only by
whitespace, or the whole line is one quoted token; in particular complete
lines ending in a properly closed string are dropped too. -/
theorem filter_keep_exact_characterization (l : List Char) :
    keepLine l = true ↔
      ((l = [lcur] ∨ l = [rcur] ∨ l = ['['] ∨ l = [']']) ∨
       ((¬ ∃ t1 c t2, l = t1 ++ c :: t2 ∧ (c = ':' ∨ c = '"') ∧ ∀ d ∈ t2, wsc d = true) ∧
        (¬ ∃ mid, l = '"' :: mid ++ ['"'] ∧ mid ≠ [] ∧ ∀ d ∈ mid, d ≠ '"'))) := by
  unfold keepLine
  split_ifs with h1 h2 h3
  · simp only [true_iff]
    left
    exact (by tauto : (((l = [lcur] ∨ l = [rcur]) ∨ l = ['[']) ∨ l = [']']) →
      (l = [lcur] ∨ l = [rcur] ∨ l = ['['] ∨ l = [']'])) (by simpa using h1)
  · simp only [Bool.false_eq_true, false_iff]
    rintro (hd | ⟨hA, hB⟩)
    · exact absurd ((by tauto : (l = [lcur] ∨ l = [rcur] ∨ l = ['['] ∨ l = [']']) →
        (((l = [lcur] ∨ l = [rcur]) ∨ l = ['[']) ∨ l = [']'])) hd) (by simpa using h1)
    · refine hA ?_
      obtain ⟨t1, c, t2, heq, hc, hws⟩ := (rtest_endsCQ _ l).1 h2
      refine ⟨t1, c, t2, heq, ?_, hws⟩
      simpa using hc
  · simp only [Bool.false_eq_true, false_iff]
    rintro (hd | ⟨hA, hB⟩)
    · exact absurd ((by tauto : (l = [lcur] ∨ l = [rcur] ∨ l = ['['] ∨ l = [']']) →
        (((l = [lcur] ∨ l = [rcur]) ∨ l = ['[']) ∨ l = [']'])) hd) (by simpa using h1)
    · exact hB ((mtc_quotedTok l).1 h3)
  · simp only [true_iff]
    right
    constructor
    · rintro ⟨t1, c, t2, heq, hc, hws⟩
      refine absurd ((rtest_endsCQ _ l).2 ⟨t1, c, t2, heq, ?_, hws⟩) (by simpa using h2)
      rcases hc with rfl | rfl <;> simp
    · intro hB
      exact absurd ((mtc_quotedTok l).2 hB) (by simpa using h3)

theorem sessionLoop_calls_bounds (gen : Nat → List Char) (m : Nat) :
    ∀ fuel attempt prompts r,
      attempt ≤ (sessionLoop gen m attempt fuel prompts r).calls
      ∧ (sessionLoop gen m attempt fuel prompts r).calls ≤ max m attempt := by
  intro fuel
  induction fuel with
  | zero =>
    intro attempt prompts r
    cases r with
    | ok v => exact ⟨le_refl _, Nat.le_max_right _ _⟩
    | error e => exact ⟨le_refl _, Nat.le_max_right _ _⟩
  | succ f ih =>
    intro attempt prompts r
    cases r with
    | ok v => exact ⟨le_refl _, Nat.le_max_right _ _⟩
    | error e =>
      simp only [sessionLoop]
      by_cases hm : m ≤ attempt
      · rw [if_pos hm]; exact ⟨le_refl _, Nat.le_max_right _ _⟩
      · rw [if_neg hm]
        have hrec := ih (attempt + 1)
          (prompts ++ [buildRepairPrompt (gen (attempt - 1)) e]) (attemptOutcome (gen attempt))
        have hmax1 : max m (attempt + 1) = m := Nat.max_eq_left (by omega)
        have hmax2 : max m attempt = m := Nat.max_eq_left (by omega)
        rw [hmax1] at hrec
        rw [hmax2]
        exact ⟨by omega, hrec.2⟩

theorem sessionLoop_success (gen : Nat → List Char) (m : Nat) :
    ∀ fuel attempt prompts r v,
      attemptOutcome (gen (attempt - 1)) = r →
      (sessionLoop gen m attempt fuel prompts r).outcome = Except.ok v →
      attemptOutcome (gen ((sessionLoop gen m attempt fuel prompts r).calls - 1))
          = Except.ok v
      ∧ ∀ j, attempt ≤ j → j < (sessionLoop gen m attempt fuel prompts r).calls →
          exceptIsOk (attemptOutcome (gen (j - 1))) = false := by
  intro fuel
  induction fuel with
  | zero =>
    intro attempt prompts r v hlink hout
    cases r with
    | ok w =>
      obtain rfl : w = v := by injection hout
      exact ⟨hlink, fun j h1 h2 => absurd (lt_of_lt_of_le h2 h1) (lt_irrefl j)⟩
    | error e => cases hout
  | succ f ih =>
    intro attempt prompts r v hlink hout
    cases r with
    | ok w =>
      obtain rfl : w = v := by injection hout
      exact ⟨hlink, fun j h1 h2 => absurd (lt_of_lt_of_le h2 h1) (lt_irrefl j)⟩
    | error e =>
      simp only [sessionLoop] at hout ⊢
      by_cases hm : m ≤ attempt
      · rw [if_pos hm] at hout
        cases hout
      · rw [if_neg hm] at hout ⊢
        obtain ⟨hA, hB⟩ := ih (attempt + 1)
          (prompts ++ [buildRepairPrompt (gen (attempt - 1)) e])
          (attemptOutcome (gen attempt)) v (by simp) hout
        refine ⟨hA, fun j h1 h2 => ?_⟩
        rcases Nat.eq_or_lt_of_le h1 with rfl | h1'
        · rw [hlink]; rfl
        · exact hB j h1' h2

theorem sessionLoop_exhaust (gen : Nat → List Char) (m : Nat) :
    ∀ fuel attempt prompts r, attempt ≤ m → m ≤ attempt + fuel →
      attemptOutcome (gen (attempt - 1)) = r →
      (∀ j, attempt ≤ j → j ≤ m → exceptIsOk (attemptOutcome (gen (j - 1))) = false) →
      (sessionLoop gen m attempt fuel prompts r).outcome
          = Except.error (exhaustMsg m (errOf (attemptOutcome (gen (m - 1)))) (gen (m - 1)))
      ∧ (sessionLoop gen m attempt fuel prompts r).calls = m := by
  intro fuel
  induction fuel with
  | zero =>
    intro attempt prompts r h1 h2 hlink hall
    have heq : attempt = m := by omega
    subst heq
    cases r with
    | ok w =>
      have hf := hall attempt (le_refl _) h1
      rw [hlink] at hf
      cases hf
    | error e =>
      rw [hlink]
      exact ⟨rfl, rfl⟩
  | succ f ih =>
    intro attempt prompts r h1 h2 hlink hall
    cases r with
    | ok w =>
      have hf := hall attempt (le_refl _) h1
      rw [hlink] at hf
      cases hf
    | error e =>
      simp only [sessionLoop]
      by_cases hm : m ≤ attempt
      · have heq : attempt = m := by omega
        subst heq
        rw [if_pos hm, hlink]
        exact ⟨rfl, rfl⟩
      · rw [if_neg hm]
        exact ih (attempt + 1) (prompts ++ [buildRepairPrompt (gen (attempt - 1)) e])
          (attemptOutcome (gen attempt)) (by omega) (by omega) (by simp)
          (fun j hj1 hj2 => hall j (by omega) hj2)

/-- C1: for every attempt bound of at least one, the repair-retry
controller issues at most that many generation calls; when the outcome is
a success the value is the validated result of the final call and every
earlier attempt failed, so no further generation follows a success; and
when every attempt up to the bound fails the controller stops with an
error after exactly the bound many calls. -/
theorem generateVideoStructure_bounded_retries (gen : Nat → List Char) (m : Nat) (hm : 1 ≤ m) :
    (generateVideoStructure gen m).calls ≤ m
    ∧ (∀ v, (generateVideoStructure gen m).outcome = Except.ok v →
        attemptOutcome (gen ((generateVideoStructure gen m).calls - 1)) = Except.ok v
        ∧ ∀ j, 1 ≤ j → j < (generateVideoStructure gen m).calls →
            exceptIsOk (attemptOutcome (gen (j - 1))) = false)
    ∧ ((∀ j, j < m → exceptIsOk (attemptOutcome (gen j)) = false) →
        exceptIsOk (generateVideoStructure gen m).outcome = false
        ∧ (generateVideoStructure gen m).calls = m) := by
  unfold generateVideoStructure
  refine ⟨?_, ?_, ?_⟩
  · have h := (sessionLoop_calls_bounds gen m m 1 [] (attemptOutcome (gen 0))).2
    rw [Nat.max_eq_left hm] at h
    exact h
  · intro v hout
    exact sessionLoop_success gen m m 1 [] (attemptOutcome (gen 0)) v rfl hout
  · intro hall
    have h := sessionLoop_exhaust gen m m 1 [] (attemptOutcome (gen 0)) hm (by omega) rfl
      (fun j hj1 hj2 => hall (j - 1) (by omega))
    rw [h.1]
    exact ⟨rfl, h.2⟩

theorem exhaustMsg_carries (m : Nat) (e x : List Char) :
    e <:+: exhaustMsg m e x ∧ x.take 500 <:+: exhaustMsg m e x := by
  constructor
  · exact ⟨("Could not obtain a valid video structure after ".data) ++ (toString m).data
      ++ (" attempts.\nLast error: ".data),
      ("\nLast LLM output (truncated): ".data) ++ x.take 500,
      by simp [exhaustMsg, List.append_assoc]⟩
  · exact ⟨("Could not obtain a valid video structure after ".data) ++ (toString m).data
      ++ (" attempts.\nLast error: ".data) ++ e ++ ("\nLast LLM output (truncated): ".data),
      [], by simp [exhaustMsg, List.append_assoc]⟩

theorem repairPrompt_carries (raw e : List Char) : e <:+: buildRepairPrompt raw e := by
  unfold buildRepairPrompt
  by_cases h : (containsSub e ("Expected".data)
      && containsSub e ("after property value".data)) = true
  · rw [if_pos h]
    exact ⟨("The JSON you returned is not valid.\n\n**Your output**\n\n```\n".data)
        ++ raw.take 1500 ++ ("\n```\n\n**Error**\n\n".data) ++ ("JSON parsing error: ".data),
      ("\n\nCOMMON FIXES:\n- Make sure every object in an array has a closing brace \x7d before the array closes with ]\n- Example WRONG: \x7b\"id\": \"seg1\", \"order\": 1]  (missing closing brace)\n- Example CORRECT: \x7b\"id\": \"seg1\", \"order\": 1\x7d]  (has closing brace)\n- Make sure all properties are separated by commas\n- Make sure all strings are properly quoted\n- Check that the last segment object closes with \x7d before the array closes with ]".data)
        ++ ("\n\n**CRITICAL**: Please rewrite the ENTIRE JSON object from scratch. Make absolutely sure:\n1. Every object in the segments array has a closing brace \x7d before the array closes\n2. All properties are separated by commas\n3. The JSON is valid and can be parsed by JSON.parse()\n4. Output ONLY the JSON - no markdown, no code fences, no explanations".data),
      by simp [List.append_assoc]⟩
  · rw [if_neg h]
    exact ⟨("The JSON you returned is not valid.\n\n**Your output**\n\n```\n".data)
        ++ raw.take 1500 ++ ("\n```\n\n**Error**\n\n".data),
      ("\n\n**CRITICAL**: Please rewrite the ENTIRE JSON object from scratch. Make absolutely sure:\n1. Every object in the segments array has a closing brace \x7d before the array closes\n2. All properties are separated by commas\n3. The JSON is valid and can be parsed by JSON.parse()\n4. Output ONLY the JSON - no markdown, no code fences, no explanations".data),
      by simp [List.append_assoc]⟩

/-- C2 amended: when the controller exhausts its attempt budget, the
terminal error carries the attempt bound, the error of the final attempt
and a truncated excerpt of the final raw output, each an infix of the
message; the error of an attempt is also embedded in the repair prompt
built from it, but the errors of earlier attempts do not appear in the
terminal error itself. -/
theorem exhaustion_error_carries_last_error (gen : Nat → List Char) (m : Nat) (hm : 1 ≤ m)
    (hall : ∀ j, j < m → exceptIsOk (attemptOutcome (gen j)) = false) :
    (generateVideoStructure gen m).outcome
        = Except.error
            (exhaustMsg m (errOf (attemptOutcome (gen (m - 1)))) (gen (m - 1)))
    ∧ errOf (attemptOutcome (gen (m - 1)))
        <:+: exhaustMsg m (errOf (attemptOutcome (gen (m - 1)))) (gen (m - 1))
    ∧ (gen (m - 1)).take 500
        <:+: exhaustMsg m (errOf (attemptOutcome (gen (m - 1)))) (gen (m - 1))
    ∧ (∀ raw er, er <:+: buildRepairPrompt raw er) := by
  have h := sessionLoop_exhaust gen m m 1 [] (attemptOutcome (gen 0)) hm (by omega) rfl
    (fun j hj1 hj2 => hall (j - 1) (by omega))
  unfold generateVideoStructure
  exact ⟨h.1, (exhaustMsg_carries m _ _).1, (exhaustMsg_carries m _ _).2,
    fun raw er => repairPrompt_carries raw er⟩

theorem generateVideoStructure_bounded_retries_witness :
    (generateVideoStructure genAlpha 3).calls = 3
    ∧ exceptIsOk (generateVideoStructure genAlpha 3).outcome = false := by
  have h := (generateVideoStructure_bounded_retries genAlpha 3 (by decide)).2.2 (by decide)
  exact ⟨h.2, h.1⟩

theorem exhaustion_error_carries_last_error_witness :
    (generateVideoStructure gen2 2).outcome
      = Except.error (exhaustMsg 2 (errOf (attemptOutcome (gen2 (2 - 1)))) (gen2 (2 - 1))) :=
  (exhaustion_error_carries_last_error gen2 2 (by decide) (by decide)).1

theorem extraction_without_brace_is_passthrough_witness : extractStage (("42").data) = ("42").data := by
  have h := extraction_without_brace_is_passthrough (("42").data) (by decide) (by decide)
  exact h.trans (by decide)

theorem balancer_appends_exact_deficit_witness : balanceBrackets (("\x7b\x7b").data) = ("\x7b\x7b\x7d\x7d").data := by
  have h := balancer_appends_exact_deficit (("\x7b\x7b").data) (by decide)
  exact h.trans (by decide)

theorem validation_message_contains_every_path_witness :
    (("structure.total_duration").data) <:+: validationMessage vtwo
    ∧ (("structure.voiceover_duration").data) <:+: validationMessage vtwo := by
  constructor
  · exact validation_message_contains_every_path vtwo
      ⟨[PathElem.key (("structure").data), PathElem.key (("total_duration").data)],
       ("Number must be greater than 0").data⟩ (by decide)
  · exact validation_message_contains_every_path vtwo
      ⟨[PathElem.key (("structure").data), PathElem.key (("voiceover_duration").data)],
       ("Number must be greater than or equal to 0").data⟩ (by decide)

theorem filter_keep_exact_characterization_witness : keepLine (("\x7b").data) = true :=
  (filter_keep_exact_characterization (("\x7b").data)).mpr (Or.inl (Or.inl rfl))

theorem single_parse_decides_attempt_witness : strictParse (repairedText (("42").data)) = Except.ok (Json.num 42) :=
  ((single_parse_decides_attempt (("42").data) (Json.num 42)).1).mp rfl

theorem balancer_append_only_witness : balanceBrackets (("abc").data) = ("abc").data :=
  (balancer_append_only (("abc").data)).2 (by decide) (by decide)
